import Mathlib

set_option maxRecDepth 100000

/-!
Verification development for the Travel-Booking-Assistant RAG pipeline
(`src/rag_pipeline.py`).  Python functions are shallowly embedded as Lean
functions; external effects (the PDF reader, the chroma vector engine, the
LLM call) are abstracted as explicit parameters or small inductive
environments, while every piece of pure logic is translated directly from
the source.
-/

namespace Travel

/-! ## Words and whitespace

Python's `str.split()` (no separator argument) splits on runs of
whitespace and never produces empty pieces.  `splitWords` models it by
structural recursion over the character list, accumulating the current
word in reverse. -/

def flushWord (acc : List Char) : List String :=
  if acc.isEmpty then [] else [String.mk acc.reverse]

def splitWordsAux : List Char → List Char → List String
  | [], acc => flushWord acc
  | c :: cs, acc =>
    if c.isWhitespace then flushWord acc ++ splitWordsAux cs []
    else splitWordsAux cs (c :: acc)

/-- Python `text.split()`: whitespace-separated words, no empties. -/
def splitWords (s : String) : List String := splitWordsAux s.data []

/-! ## Chunking (`chunk_text`, src/rag_pipeline.py lines 70-82)

The Python loop is

    while start < len(words):
        end = min(start + CHUNK_SIZE, len(words))
        chunks.append(" ".join(words[start:end]))
        if end == len(words): break
        start = end - CHUNK_OVERLAP

`chunkAux` embeds it with explicit fuel (the loop does not terminate for
`chunk_overlap >= chunk_size`, so the embedding returns `none` when the
fuel runs out; `chunkAux_isSome` below shows fuel `words.length + 1` is
always enough when `chunk_overlap < chunk_size`).  The word windows are
kept as word lists; joining with a single space is applied at the end,
exactly as `" ".join(words[start:end])` does per iteration. -/

def CHUNK_SIZE : Nat := 300
def CHUNK_OVERLAP : Nat := 60

def chunkAux (cs co : Nat) (words : List String) : Nat → Nat → Option (List (List String))
  | 0, _ => none
  | fuel + 1, start =>
    if start < words.length then
      if min (start + cs) words.length = words.length then
        some [(words.drop start).take (min (start + cs) words.length - start)]
      else
        match chunkAux cs co words fuel (min (start + cs) words.length - co) with
        | none => none
        | some rest =>
          some ((words.drop start).take (min (start + cs) words.length - start) :: rest)
    else some []

/-- The word-level chunking with the fuel instantiated as in `chunk_text`. -/
def chunkWordsP (cs co : Nat) (words : List String) : List (List String) :=
  (chunkAux cs co words (words.length + 1) 0).getD []

/-- `chunk_text` from src/rag_pipeline.py: `if not text: return []`, then
the chunking loop over `text.split()` with the module constants
`CHUNK_SIZE = 300`, `CHUNK_OVERLAP = 60`. -/
def chunk_text (text : String) : List String :=
  if text = "" then []
  else
    (chunkWordsP CHUNK_SIZE CHUNK_OVERLAP (splitWords text)).map
      (fun ws => String.intercalate " " ws)

/-! ### Chunking lemmas

`chunkFrom` packages the loop "resumed at offset `start`" with the fuel
it actually needs; the three equations `chunkFrom_stop`, `chunkFrom_last`
and `chunkFrom_step` are exactly the three behaviours of one iteration of
the Python loop. -/

def chunkFrom (cs co : Nat) (words : List String) (start : Nat) : List (List String) :=
  (chunkAux cs co words (words.length - start + 1) start).getD []

theorem chunkWordsP_eq_chunkFrom (cs co : Nat) (words : List String) :
    chunkWordsP cs co words = chunkFrom cs co words 0 := rfl

theorem chunkAux_mono {cs co : Nat} {words : List String} :
    ∀ {fuel fuel' start : Nat} {r : List (List String)},
      chunkAux cs co words fuel start = some r → fuel ≤ fuel' →
      chunkAux cs co words fuel' start = some r := by
  intro fuel
  induction fuel with
  | zero =>
    intro fuel' start r h _
    simp [chunkAux] at h
  | succ n ih =>
    intro fuel' start r h hle
    obtain ⟨m, rfl⟩ : ∃ m, fuel' = m + 1 := ⟨fuel' - 1, by omega⟩
    rw [chunkAux] at h ⊢
    by_cases hs : start < words.length
    · simp only [if_pos hs] at h ⊢
      by_cases he : min (start + cs) words.length = words.length
      · simp only [if_pos he] at h ⊢
        exact h
      · simp only [if_neg he] at h ⊢
        cases hrec : chunkAux cs co words n (min (start + cs) words.length - co) with
        | none => rw [hrec] at h; exact absurd h (by simp)
        | some rest =>
          rw [hrec] at h
          rw [ih hrec (by omega)]
          exact h
    · simp only [if_neg hs] at h ⊢
      exact h

theorem chunkAux_isSome {cs co : Nat} (h : co < cs) (words : List String) :
    ∀ fuel start, words.length - start < fuel → (chunkAux cs co words fuel start).isSome := by
  intro fuel
  induction fuel with
  | zero => intro start h0; omega
  | succ n ih =>
    intro start hlt
    rw [chunkAux]
    by_cases hs : start < words.length
    · simp only [if_pos hs]
      by_cases he : min (start + cs) words.length = words.length
      · simp only [if_pos he, Option.isSome_some]
      · simp only [if_neg he]
        have hcs : start + cs < words.length := by omega
        have hmin : min (start + cs) words.length = start + cs := by omega
        rw [hmin]
        have hrec := ih (start + cs - co) (by omega)
        cases hr : chunkAux cs co words n (start + cs - co) with
        | none => rw [hr] at hrec; exact absurd hrec (by simp)
        | some rest => simp
    · simp only [if_neg hs, Option.isSome_some]

theorem chunkFrom_eq_getD_of_fuel {cs co : Nat} (h : co < cs) (words : List String)
    {start fuel : Nat} (hf : words.length - start < fuel) :
    chunkFrom cs co words start = (chunkAux cs co words fuel start).getD [] := by
  have h1 := chunkAux_isSome h words (words.length - start + 1) start (by omega)
  obtain ⟨r, hr⟩ := Option.isSome_iff_exists.mp h1
  rw [chunkFrom, hr, chunkAux_mono hr (by omega : words.length - start + 1 ≤ fuel)]

theorem chunkFrom_stop {cs co : Nat} (words : List String) {start : Nat}
    (hs : words.length ≤ start) : chunkFrom cs co words start = [] := by
  unfold chunkFrom
  have h0 : words.length - start = 0 := by omega
  rw [h0, chunkAux]
  simp [Nat.not_lt.mpr hs]

theorem chunkFrom_last {cs co : Nat} (words : List String) {start : Nat}
    (hs : start < words.length) (hle : words.length ≤ start + cs) :
    chunkFrom cs co words start = [(words.drop start).take (words.length - start)] := by
  unfold chunkFrom
  rw [chunkAux]
  have hmin : min (start + cs) words.length = words.length := by omega
  simp [hs, hmin]

theorem chunkFrom_step {cs co : Nat} (h : co < cs) (words : List String) {start : Nat}
    (hlt : start + cs < words.length) :
    chunkFrom cs co words start =
      (words.drop start).take cs :: chunkFrom cs co words (start + cs - co) := by
  have hs : start < words.length := by omega
  have hmin : min (start + cs) words.length = start + cs := by omega
  conv_lhs => rw [chunkFrom]
  rw [chunkAux]
  simp only [if_pos hs, hmin, if_neg (show ¬ start + cs = words.length by omega)]
  have htk : start + cs - start = cs := by omega
  rw [htk]
  have hrec := chunkAux_isSome h words (words.length - start) (start + cs - co) (by omega)
  obtain ⟨r, hr⟩ := Option.isSome_iff_exists.mp hrec
  rw [hr, chunkFrom_eq_getD_of_fuel h words
    (by omega : words.length - (start + cs - co) < words.length - start), hr]
  rfl

theorem chunkFrom_getD {cs co : Nat} (h : co < cs) (words : List String) :
    ∀ start i, i < (chunkFrom cs co words start).length →
      (chunkFrom cs co words start).getD i [] =
        (words.drop (start + i * (cs - co))).take cs := by
  intro start
  generalize hm : words.length - start = m
  induction m using Nat.strong_induction_on generalizing start with
  | _ m ih =>
    intro i hi
    rcases Nat.lt_or_ge start words.length with hs | hs
    · rcases Nat.lt_or_ge (start + cs) words.length with hlt | hle
      · rw [chunkFrom_step h words hlt] at hi ⊢
        cases i with
        | zero => simp
        | succ j =>
          have hj : j < (chunkFrom cs co words (start + cs - co)).length := by
            simpa using hi
          rw [List.getD_cons_succ]
          rw [ih (words.length - (start + cs - co)) (by omega) (start + cs - co) rfl j hj]
          have hidx : start + cs - co + j * (cs - co) = start + (j + 1) * (cs - co) := by
            have hmul : (j + 1) * (cs - co) = j * (cs - co) + (cs - co) := Nat.succ_mul j (cs - co)
            omega
          rw [hidx]
      · rw [chunkFrom_last words hs hle] at hi ⊢
        have hi0 : i = 0 := by simp at hi; omega
        subst hi0
        simp only [List.getD_cons_zero, Nat.zero_mul, Nat.add_zero]
        have hlen : (words.drop start).length = words.length - start := List.length_drop _ _
        rw [List.take_of_length_le (le_of_eq hlen), List.take_of_length_le (by omega)]
    · rw [chunkFrom_stop words hs] at hi
      simp at hi

theorem chunkFrom_nonfinal {cs co : Nat} (h : co < cs) (words : List String) :
    ∀ start i, i + 1 < (chunkFrom cs co words start).length →
      start + i * (cs - co) + cs < words.length := by
  intro start
  generalize hm : words.length - start = m
  induction m using Nat.strong_induction_on generalizing start with
  | _ m ih =>
    intro i hi
    rcases Nat.lt_or_ge start words.length with hs | hs
    · rcases Nat.lt_or_ge (start + cs) words.length with hlt | hle
      · rw [chunkFrom_step h words hlt] at hi
        cases i with
        | zero => simpa using hlt
        | succ j =>
          have hj : j + 1 < (chunkFrom cs co words (start + cs - co)).length := by
            simpa using hi
          have := ih (words.length - (start + cs - co)) (by omega) (start + cs - co) rfl j hj
          have hidx : start + cs - co + j * (cs - co) = start + (j + 1) * (cs - co) := by
            have hmul : (j + 1) * (cs - co) = j * (cs - co) + (cs - co) := Nat.succ_mul j (cs - co)
            omega
          omega
      · rw [chunkFrom_last words hs hle] at hi
        simp at hi
    · rw [chunkFrom_stop words hs] at hi
      simp at hi

/-! ### Shared chunking facts -/

theorem chunkWordsP_getD {cs co : Nat} (h : co < cs) (words : List String) (i : Nat)
    (hi : i < (chunkWordsP cs co words).length) :
    (chunkWordsP cs co words).getD i [] = (words.drop (i * (cs - co))).take cs := by
  rw [chunkWordsP_eq_chunkFrom] at hi ⊢
  rw [chunkFrom_getD h words 0 i hi, Nat.zero_add]

theorem chunkWordsP_nonfinal {cs co : Nat} (h : co < cs) (words : List String) (i : Nat)
    (hi : i + 1 < (chunkWordsP cs co words).length) :
    i * (cs - co) + cs < words.length := by
  rw [chunkWordsP_eq_chunkFrom] at hi
  have := chunkFrom_nonfinal h words 0 i hi
  omega

theorem chunkWordsP_len {cs co : Nat} (h : co < cs) (words : List String) (i : Nat)
    (hi : i + 1 < (chunkWordsP cs co words).length) :
    ((chunkWordsP cs co words).getD i []).length = cs := by
  rw [chunkWordsP_getD h words i (by omega)]
  have := chunkWordsP_nonfinal h words i hi
  simp only [List.length_take, List.length_drop]
  omega

theorem chunkWordsP_overlap {cs co : Nat} (h : co < cs) (words : List String) (i : Nat)
    (hi : i + 1 < (chunkWordsP cs co words).length) :
    ((chunkWordsP cs co words).getD i []).drop (cs - co) =
        ((chunkWordsP cs co words).getD (i + 1) []).take co
    ∧ (((chunkWordsP cs co words).getD i []).drop (cs - co)).length = co := by
  have hs := chunkWordsP_getD h words i (by omega)
  have hs' := chunkWordsP_getD h words (i + 1) hi
  have hfin := chunkWordsP_nonfinal h words i hi
  have hmul : (i + 1) * (cs - co) = i * (cs - co) + (cs - co) := Nat.succ_mul i (cs - co)
  rw [hs, hs', hmul]
  constructor
  · rw [List.drop_take, List.drop_drop, List.take_take]
    have h1 : cs - (cs - co) = co := by omega
    have h2 : min co cs = co := by omega
    rw [h1, h2]
  · rw [List.drop_take, List.drop_drop]
    simp only [List.length_take, List.length_drop]
    have h1 : cs - (cs - co) = co := by omega
    rw [h1]
    omega

/-! ### Claim C3 and C9: general chunking guarantees and termination -/

/-- C3: for every input word list and parameters with `chunk_overlap <
chunk_size`, every chunk produced by the `chunk_text` loop except the last
has exactly `chunk_size` words; consecutive chunks share exactly
`chunk_overlap` words (the trailing `chunk_overlap` words of one chunk are
the leading `chunk_overlap` words of the next); and chunk `i` is the
window of `chunk_size` words starting at offset `i * (chunk_size -
chunk_overlap)`, i.e. the offsets follow the advance rule
`start = start + chunk_size - chunk_overlap`. -/
theorem chunking_guarantees (cs co : Nat) (words : List String) (h : co < cs) :
    (∀ i, i + 1 < (chunkWordsP cs co words).length →
        ((chunkWordsP cs co words).getD i []).length = cs)
    ∧ (∀ i, i + 1 < (chunkWordsP cs co words).length →
        ((chunkWordsP cs co words).getD i []).drop (cs - co) =
            ((chunkWordsP cs co words).getD (i + 1) []).take co
        ∧ (((chunkWordsP cs co words).getD i []).drop (cs - co)).length = co)
    ∧ (∀ i, i < (chunkWordsP cs co words).length →
        (chunkWordsP cs co words).getD i [] = (words.drop (i * (cs - co))).take cs) :=
  ⟨fun i hi => chunkWordsP_len h words i hi,
   fun i hi => chunkWordsP_overlap h words i hi,
   fun i hi => chunkWordsP_getD h words i hi⟩

/-- C3 witness: the guarantees instantiated at `chunk_size = 3`,
`chunk_overlap = 1` on a concrete five-word list. -/
theorem chunking_guarantees_witness :
    1 < 3 ∧
    ((∀ i, i + 1 < (chunkWordsP 3 1 ["a", "b", "c", "d", "e"]).length →
        ((chunkWordsP 3 1 ["a", "b", "c", "d", "e"]).getD i []).length = 3)
    ∧ (∀ i, i + 1 < (chunkWordsP 3 1 ["a", "b", "c", "d", "e"]).length →
        ((chunkWordsP 3 1 ["a", "b", "c", "d", "e"]).getD i []).drop (3 - 1) =
            ((chunkWordsP 3 1 ["a", "b", "c", "d", "e"]).getD (i + 1) []).take 1
        ∧ (((chunkWordsP 3 1 ["a", "b", "c", "d", "e"]).getD i []).drop (3 - 1)).length = 1)
    ∧ (∀ i, i < (chunkWordsP 3 1 ["a", "b", "c", "d", "e"]).length →
        (chunkWordsP 3 1 ["a", "b", "c", "d", "e"]).getD i [] =
          ((["a", "b", "c", "d", "e"] : List String).drop (i * (3 - 1))).take 3)) :=
  ⟨by decide, chunking_guarantees 3 1 ["a", "b", "c", "d", "e"] (by decide)⟩

/-- C9: for every input and parameters with `chunk_overlap < chunk_size`,
the chunking loop terminates: there is a result that the fuel-indexed
embedding of the loop returns for every sufficient fuel (the offset
strictly increases by `chunk_size - chunk_overlap ≥ 1` per iteration, so
`words.length + 1` iterations always suffice). -/
theorem chunking_terminates (cs co : Nat) (words : List String) (h : co < cs) :
    ∃ r, ∀ fuel, words.length < fuel → chunkAux cs co words fuel 0 = some r := by
  obtain ⟨r, hr⟩ := Option.isSome_iff_exists.mp
    (chunkAux_isSome h words (words.length + 1) 0 (by omega))
  exact ⟨r, fun fuel hf => chunkAux_mono hr (by omega)⟩

/-- C9 witness: termination at the code's parameters on a concrete list. -/
theorem chunking_terminates_witness :
    60 < 300 ∧ ∃ r, ∀ fuel, (["x", "y"] : List String).length < fuel →
      chunkAux 300 60 ["x", "y"] fuel 0 = some r :=
  ⟨by decide, chunking_terminates 300 60 ["x", "y"] (by decide)⟩

/-! ### Claims C1 and C6: concrete chunk-size scenarios -/

theorem splitWords_empty : splitWords "" = [] := rfl

theorem text_ne_empty_of_words {text : String} {n : Nat}
    (h : (splitWords text).length = n) (hn : 0 < n) : text ≠ "" := by
  intro he
  subst he
  simp [splitWords_empty] at h
  omega

theorem chunk_text_eq (text : String) (hne : text ≠ "") :
    chunk_text text = (chunkWordsP 300 60 (splitWords text)).map
      (fun ws => String.intercalate " " ws) := by
  rw [chunk_text, if_neg hne]
  rfl

theorem chunkWordsP_thousand (words : List String) (h : words.length = 1000) :
    chunkWordsP 300 60 words =
      [words.take 300, (words.drop 240).take 300, (words.drop 480).take 300,
       (words.drop 720).take 280] := by
  have h60 : (60 : Nat) < 300 := by omega
  rw [chunkWordsP_eq_chunkFrom]
  rw [chunkFrom_step h60 words (show 0 + 300 < words.length by omega)]
  norm_num
  rw [chunkFrom_step h60 words (show 240 + 300 < words.length by omega)]
  norm_num
  rw [chunkFrom_step h60 words (show 480 + 300 < words.length by omega)]
  norm_num
  rw [chunkFrom_last words (show (720 : Nat) < words.length by omega)
      (show words.length ≤ 720 + 300 by omega)]
  rw [h]

theorem chunkWordsP_threeten (words : List String) (h : words.length = 310) :
    chunkWordsP 300 60 words = [words.take 300, (words.drop 240).take 70] := by
  have h60 : (60 : Nat) < 300 := by omega
  rw [chunkWordsP_eq_chunkFrom]
  rw [chunkFrom_step h60 words (show 0 + 300 < words.length by omega)]
  norm_num
  rw [chunkFrom_last words (show (240 : Nat) < words.length by omega)
      (show words.length ≤ 240 + 300 by omega)]
  rw [h]

/-- C1 (amended): for `chunk_size = 300` and `chunk_overlap = 60`,
`chunk_text` applied to any 1000-word text yields exactly four chunks of
word-lengths [300, 300, 300, 280] (the advance step is 240, so the last
chunk holds words 720..999), with each adjacent pair of chunks sharing
exactly the last/first 60 words at their shared boundary; and `chunk_text`
applied to the empty string yields an empty sequence. -/
theorem chunk_text_thousand (text : String) (h : (splitWords text).length = 1000) :
    ((chunkWordsP 300 60 (splitWords text)).map List.length = [300, 300, 300, 280]
    ∧ (∀ i, i + 1 < (chunkWordsP 300 60 (splitWords text)).length →
        ((chunkWordsP 300 60 (splitWords text)).getD i []).drop 240 =
            ((chunkWordsP 300 60 (splitWords text)).getD (i + 1) []).take 60
        ∧ (((chunkWordsP 300 60 (splitWords text)).getD i []).drop 240).length = 60)
    ∧ chunk_text text = (chunkWordsP 300 60 (splitWords text)).map
        (fun ws => String.intercalate " " ws))
    ∧ chunk_text "" = [] := by
  refine ⟨⟨?_, ?_, chunk_text_eq text (text_ne_empty_of_words h (by omega))⟩, rfl⟩
  · rw [chunkWordsP_thousand _ h]
    simp [h, Nat.min_def]
  · intro i hi
    have := chunkWordsP_overlap (show (60 : Nat) < 300 by omega) (splitWords text) i hi
    simpa using this

/-- A concrete 1000-word text (the word "a" repeated 1000 times). -/
def exampleText1000 : String := "a a a a a a a a a a a a a a a a a a a a a a a a a a a a a a a a a a a a a a a a a a a a a a a a a a a a a a a a a a a a a a a a a a a a a a a a a a a a a a a a a a a a a a a a a a a a a a a a a a a a a a a a a a a a a a a a a a a a a a a a a a a a a a a a a a a a a a a a a a a a a a a a a a a a a a a a a a a a a a a a a a a a a a a a a a a a a a a a a a a a a a a a a a a a a a a a a a a a a a a a a a a a a a a a a a a a a a a a a a a a a a a a a a a a a a a a a a a a a a a a a a a a a a a a a a a a a a a a a a a a a a a a a a a a a a a a a a a a a a a a a a a a a a a a a a a a a a a a a a a a a a a a a a a a a a a a a a a a a a a a a a a a a a a a a a a a a a a a a a a a a a a a a a a a a a a a a a a a a a a a a a a a a a a a a a a a a a a a a a a a a a a a a a a a a a a a a a a a a a a a a a a a a a a a a a a a a a a a a a a a a a a a a a a a a a a a a a a a a a a a a a a a a a a a a a a a a a a a a a a a a a a a a a a a a a a a a a a a a a a a a a a a a a a a a a a a a a a a a a a a a a a a a a a a a a a a a a a a a a a a a a a a a a a a a a a a a a a a a a a a a a a a a a a a a a a a a a a a a a a a a a a a a a a a a a a a a a a a a a a a a a a a a a a a a a a a a a a a a a a a a a a a a a a a a a a a a a a a a a a a a a a a a a a a a a a a a a a a a a a a a a a a a a a a a a a a a a a a a a a a a a a a a a a a a a a a a a a a a a a a a a a a a a a a a a a a a a a a a a a a a a a a a a a a a a a a a a a a a a a a a a a a a a a a a a a a a a a a a a a a a a a a a a a a a a a a a a a a a a a a a a a a a a a a a a a a a a a a a a a a a a a a a a a a a a a a a a a a a a a a a a a a a a a a a a a a a a a a a a a a a a a a a a a a a a a a a a a a a a a a a a a a a a a a a a a a a a a a a a a a a a a a a a a a a a a a a a a a a a a a a a a a a a a a a a a a a a a a a a a a a a a a a a a a a a a a a a a a a a a a a a a a a a a a a a a a a a a a a a a a a a a a a a a a a a a a a a a a a a a a a a a a a a a a a a a a a a a a a a a a a a a a a a a a a a a a a a a a a a a a"

/-- C1 counterexample: on a concrete 1000-word text, the word-lengths of
the chunks produced by `chunk_text` are [300, 300, 300, 280], not
[300, 300, 300, 100] as the claim states. -/
theorem chunk_text_thousand_counterexample :
    ¬ ((chunk_text exampleText1000).map (fun c => (splitWords c).length)
        = [300, 300, 300, 100]) := by
  have hsplit : splitWords exampleText1000 = List.replicate 1000 "a" := by decide
  have e300 : (splitWords (String.intercalate " " (List.replicate 300 "a"))).length = 300 := by
    decide
  have e280 : (splitWords (String.intercalate " " (List.replicate 280 "a"))).length = 280 := by
    decide
  rw [chunk_text_eq exampleText1000 (by decide), hsplit,
      chunkWordsP_thousand (List.replicate 1000 "a") (by simp)]
  simp only [List.take_replicate, List.drop_replicate]
  rw [show min 300 1000 = 300 by norm_num, show (1000 : Nat) - 240 = 760 by norm_num,
      show min 300 760 = 300 by norm_num, show (1000 : Nat) - 480 = 520 by norm_num,
      show min 300 520 = 300 by norm_num, show (1000 : Nat) - 720 = 280 by norm_num,
      show min 280 280 = 280 by norm_num]
  simp only [List.map_cons, List.map_nil, e300, e280]
  decide

/-- C1 witness: the amended statement holds at the concrete 1000-word text. -/
theorem chunk_text_thousand_witness :
    (splitWords exampleText1000).length = 1000 ∧
    (((chunkWordsP 300 60 (splitWords exampleText1000)).map List.length = [300, 300, 300, 280]
    ∧ (∀ i, i + 1 < (chunkWordsP 300 60 (splitWords exampleText1000)).length →
        ((chunkWordsP 300 60 (splitWords exampleText1000)).getD i []).drop 240 =
            ((chunkWordsP 300 60 (splitWords exampleText1000)).getD (i + 1) []).take 60
        ∧ (((chunkWordsP 300 60 (splitWords exampleText1000)).getD i []).drop 240).length = 60)
    ∧ chunk_text exampleText1000 = (chunkWordsP 300 60 (splitWords exampleText1000)).map
        (fun ws => String.intercalate " " ws))
    ∧ chunk_text "" = []) :=
  ⟨by decide, chunk_text_thousand exampleText1000 (by decide)⟩

/-- Chunk/metadata entry accumulated by `build_index_from_docs`: the text
is stored both as the document and inside the metadata dict
`{"source": file_name, "page": page_no, "text": ch}`. -/
structure BuildMeta where
  source : String
  page : Nat
  text : String
  deriving DecidableEq

/-- `build_index_from_docs` (src/rag_pipeline.py lines 122-144), with the
directory scan and the PDF reader abstracted into the `files` argument:
each element is `(file_name, pages)` where `pages` is the 1-indexed list
of non-blank page texts that `extract_text_from_pdf` produced for that
file.  For every page, every chunk of `chunk_text` contributes one
document text and one metadata entry (the source also assigns each entry
a fresh UUID id and embeds all texts in one batch; ids and embeddings
live outside the pure fragment and are not modelled). -/
def build_index_from_docs (files : List (String × List (Nat × String))) :
    List String × List BuildMeta :=
  let entries := files.flatMap (fun fp =>
    fp.2.flatMap (fun pg =>
      (chunk_text pg.2).map (fun ch => ((ch : String), (⟨fp.1, pg.1, ch⟩ : BuildMeta)))))
  (entries.map Prod.fst, entries.map Prod.snd)

/-- C6: ingesting a single one-page PDF whose page extracts to 310 words,
with `chunk_size = 300` and `chunk_overlap = 60`, produces exactly 2
chunks of 300 and 70 words respectively and exactly 2 entries, each entry
carrying metadata source = the file name and page = 1. -/
theorem build_index_single_pdf (fname content : String)
    (h : (splitWords content).length = 310) :
    ∃ w1 w2 : List String,
      chunkWordsP 300 60 (splitWords content) = [w1, w2]
      ∧ w1.length = 300 ∧ w2.length = 70
      ∧ build_index_from_docs [(fname, [(1, content)])] =
          ([String.intercalate " " w1, String.intercalate " " w2],
           [⟨fname, 1, String.intercalate " " w1⟩,
            ⟨fname, 1, String.intercalate " " w2⟩]) := by
  have hw := chunkWordsP_threeten (splitWords content) h
  refine ⟨(splitWords content).take 300, ((splitWords content).drop 240).take 70,
    hw, ?_, ?_, ?_⟩
  · simp [List.length_take, h]
  · simp [List.length_take, List.length_drop, h]
  · simp [build_index_from_docs, chunk_text_eq content (text_ne_empty_of_words h (by omega)), hw]

/-- A concrete 310-word text of pairwise distinct words. -/
def exampleText310 : String := "w0 w1 w2 w3 w4 w5 w6 w7 w8 w9 w10 w11 w12 w13 w14 w15 w16 w17 w18 w19 w20 w21 w22 w23 w24 w25 w26 w27 w28 w29 w30 w31 w32 w33 w34 w35 w36 w37 w38 w39 w40 w41 w42 w43 w44 w45 w46 w47 w48 w49 w50 w51 w52 w53 w54 w55 w56 w57 w58 w59 w60 w61 w62 w63 w64 w65 w66 w67 w68 w69 w70 w71 w72 w73 w74 w75 w76 w77 w78 w79 w80 w81 w82 w83 w84 w85 w86 w87 w88 w89 w90 w91 w92 w93 w94 w95 w96 w97 w98 w99 w100 w101 w102 w103 w104 w105 w106 w107 w108 w109 w110 w111 w112 w113 w114 w115 w116 w117 w118 w119 w120 w121 w122 w123 w124 w125 w126 w127 w128 w129 w130 w131 w132 w133 w134 w135 w136 w137 w138 w139 w140 w141 w142 w143 w144 w145 w146 w147 w148 w149 w150 w151 w152 w153 w154 w155 w156 w157 w158 w159 w160 w161 w162 w163 w164 w165 w166 w167 w168 w169 w170 w171 w172 w173 w174 w175 w176 w177 w178 w179 w180 w181 w182 w183 w184 w185 w186 w187 w188 w189 w190 w191 w192 w193 w194 w195 w196 w197 w198 w199 w200 w201 w202 w203 w204 w205 w206 w207 w208 w209 w210 w211 w212 w213 w214 w215 w216 w217 w218 w219 w220 w221 w222 w223 w224 w225 w226 w227 w228 w229 w230 w231 w232 w233 w234 w235 w236 w237 w238 w239 w240 w241 w242 w243 w244 w245 w246 w247 w248 w249 w250 w251 w252 w253 w254 w255 w256 w257 w258 w259 w260 w261 w262 w263 w264 w265 w266 w267 w268 w269 w270 w271 w272 w273 w274 w275 w276 w277 w278 w279 w280 w281 w282 w283 w284 w285 w286 w287 w288 w289 w290 w291 w292 w293 w294 w295 w296 w297 w298 w299 w300 w301 w302 w303 w304 w305 w306 w307 w308 w309"

/-- C6 witness: the statement holds at a concrete one-page file whose page
text has 310 distinct words. -/
theorem build_index_single_pdf_witness :
    (splitWords exampleText310).length = 310 ∧
    (∃ w1 w2 : List String,
      chunkWordsP 300 60 (splitWords exampleText310) = [w1, w2]
      ∧ w1.length = 300 ∧ w2.length = 70
      ∧ build_index_from_docs [("guide.pdf", [(1, exampleText310)])] =
          ([String.intercalate " " w1, String.intercalate " " w2],
           [⟨"guide.pdf", 1, String.intercalate " " w1⟩,
            ⟨"guide.pdf", 1, String.intercalate " " w2⟩])) :=
  ⟨by decide, build_index_single_pdf "guide.pdf" exampleText310 (by decide)⟩

/-! ## Retrieval (`retrieve`, src/rag_pipeline.py lines 277-352)

The chroma engine call itself is external I/O; it is abstracted as a
function from `(query, top_k)` to the raw per-query result lists.  The
post-processing of those lists (lines 308-344) is embedded exactly. -/

/-- A metadata dict stored in the chroma collection, as read back by
`retrieve` (keys "source" and "page") and by `load_index` (key "text");
`meta.get` on an absent key returns Python `None`, modelled by `none`. -/
structure ChromaMeta where
  source : Option String
  page : Option Nat
  text : Option String
  deriving DecidableEq

/-- Python `{}`: the metadata dict with no keys. -/
def emptyMeta : ChromaMeta := ⟨none, none, none⟩

/-- The per-query result lists extracted from `collection.query(...)`
(`ids[0]`, `documents[0]`, `metadatas[0]`, `distances[0]`).  The lists may
be ragged or empty; when the engine returns no distances the code
substitutes either `[]` or `[0.0] * max(len(ids), len(docs), len(mds))`,
both expressible here. -/
structure EngineRaw where
  ids : List String
  documents : List String
  metadatas : List ChromaMeta
  distances : List Rat
  deriving DecidableEq

/-- The hit record built by `retrieve` (lines 336-344). -/
structure Hit where
  score : Rat
  chunk_id : Option String
  chunk : String
  source : Option String
  page : Option Nat
  deriving DecidableEq

/-- The all-defaults hit (used only as a `getD` default in statements). -/
def defaultHit : Hit := ⟨0, none, "", none, none⟩

/-- Lines 329-344 of `retrieve`: `count` is the length of the longest
component list, and every list access is bounds-guarded — `ids[i] if i <
len(ids) else None`, `docs[i] if i < len(docs) else ""`, `mds[i] if i <
len(mds) else {}`, `float(dists[i]) if i < len(dists) else 0.0`. -/
def retrieve_hits (r : EngineRaw) : List Hit :=
  let count := max (max r.ids.length r.documents.length)
      (max r.metadatas.length r.distances.length)
  (List.range count).map (fun i =>
    { score := r.distances.getD i 0
      chunk_id := r.ids.get? i
      chunk := r.documents.getD i ""
      source := (r.metadatas.getD i emptyMeta).source
      page := (r.metadatas.getD i emptyMeta).page })

/-- The handle dict returned by `load_index` and consumed by `retrieve` /
`answer_with_rag`. -/
structure IndexHandle where
  persist_directory : String
  collection_name : String
  metadatas : List ChromaMeta
  deriving DecidableEq

/-- `retrieve` (lines 277-352): raises `ValueError` when the handle is
`None` (modelled as `Except.error` with the source's message); otherwise
embeds the query, queries the engine, and post-processes the raw lists
with `retrieve_hits`. -/
def retrieve (engine : String → Nat → EngineRaw) (query : String)
    (index_obj : Option IndexHandle) (top_k : Nat) : Except String (List Hit) :=
  match index_obj with
  | none => Except.error "Index object is None. Build or load an index first."
  | some _ => Except.ok (retrieve_hits (engine query top_k))

/-! ## Prompt assembly (`assemble_prompt`, lines 356-370) -/

/-- Python `str()` of a value that is a string or `None`, as interpolated
by the f-string. -/
def pyStrOptStr : Option String → String
  | none => "None"
  | some s => s

/-- Python `str()` of a value that is an int or `None`. -/
def pyStrOptNat : Option Nat → String
  | none => "None"
  | some n => Nat.repr n

/-- One formatted context segment:
`f"Source: {r.get('source')} (page {r.get('page')})\n{r.get('chunk')}\n---\n"`. -/
def segment (r : Hit) : String :=
  "Source: " ++ pyStrOptStr r.source ++ " (page " ++ pyStrOptNat r.page ++ ")\n"
    ++ r.chunk ++ "\n---\n"

/-- The accumulation loop of `assemble_prompt` (lines 357-364): append
whole segments while the running total stays within `max_chars`, and
`break` at the first segment whose addition would exceed it. -/
def promptPartsAux (max_chars : Nat) : List Hit → Nat → List String
  | [], _ => []
  | r :: rs, total =>
    if max_chars < total + (segment r).length then []
    else segment r :: promptPartsAux max_chars rs (total + (segment r).length)

/-- The `parts` list of `assemble_prompt` (initial `total = 0`). -/
def promptParts (retrieved : List Hit) (max_chars : Nat) : List String :=
  promptPartsAux max_chars retrieved 0

/-- `ctx = "\n".join(parts)` (line 365). -/
def prompt_context (retrieved : List Hit) (max_chars : Nat) : String :=
  String.intercalate "\n" (promptParts retrieved max_chars)

/-- `assemble_prompt` (lines 356-370); the final template line reproduces
the source file byte-for-byte, including its mangled dash. -/
def assemble_prompt (query : String) (retrieved : List Hit) (max_chars : Nat) : String :=
  "You are a travel assistant. Use only the context below to answer the question.\n\n"
    ++ "Context:\n" ++ prompt_context retrieved max_chars ++ "\nQuestion:\n" ++ query ++ "\n"
    ++ "Answer concisely in 2â€“4 sentences and mention file names when relevant."

/-! ## RAG entrypoint (`answer_with_rag`, lines 374-396) -/

structure RagResult where
  retrieved : List Hit
  prompt : String
  answer : String
  deriving DecidableEq

/-- `", ".join({r.get("source") for r in retrieved if r.get("source")})`
with the `if files else "your documents"` fallback (lines 387-388 and
392-393); the Python set comprehension is modelled as first-occurrence
deduplication of the present sources. -/
def fallback_files (retrieved : List Hit) : String :=
  let files := (retrieved.filterMap Hit.source).dedup
  if files.isEmpty then "your documents" else String.intercalate ", " files

/-- `answer_with_rag` (lines 374-396).  `llm_fn` models the supplied
`generate(prompt)` function: `Except.error e` is a raised exception with
message `e`, `Except.ok a` a returned string; the Python falsiness test
`if not answer` on a string is `answer = ""`. -/
def answer_with_rag (engine : String → Nat → EngineRaw)
    (llm_fn : String → Except String String) (query : String)
    (index_obj : Option IndexHandle) (top_k : Nat) : Except String RagResult :=
  match index_obj with
  | none => Except.error "Index object is None. Build or load an index first."
  | some h =>
    match retrieve engine query (some h) top_k with
    | Except.error e => Except.error e
    | Except.ok retrieved =>
      let prompt := assemble_prompt query retrieved 2000
      let answer :=
        match llm_fn prompt with
        | Except.ok a => a
        | Except.error e =>
          "I found relevant information in " ++ fallback_files retrieved
            ++ " but could not call the LLM (" ++ e ++ ")."
      let answer2 :=
        if answer = "" then
          "I found relevant information in " ++ fallback_files retrieved
            ++ ", but could not generate a detailed answer."
        else answer
      Except.ok ⟨retrieved, prompt, answer2⟩

/-! ### Claim C10: bounds-guarded hit construction -/

theorem retrieve_hits_getD (r : EngineRaw) (i : Nat)
    (hi : i < (retrieve_hits r).length) :
    (retrieve_hits r).getD i defaultHit =
      ⟨r.distances.getD i 0, r.ids.get? i, r.documents.getD i "",
       (r.metadatas.getD i emptyMeta).source, (r.metadatas.getD i emptyMeta).page⟩ := by
  rw [List.getD_eq_getElem _ _ hi]
  simp [retrieve_hits]

/-- C10: every hit returned by the post-processing of an engine query is a
record with all five fields present and every list access bounds-guarded:
the hit list has exactly `max(len ids, len docs, len metas, len dists)`
entries; entry `i` takes each field from the corresponding list when `i`
is in range, and otherwise the defaults — score `0.0` when no distance is
available, `""` for a missing chunk text, and `None` for a missing id,
source or page. -/
theorem retrieve_hits_defaults (r : EngineRaw) :
    (retrieve_hits r).length =
      max (max r.ids.length r.documents.length) (max r.metadatas.length r.distances.length)
    ∧ (∀ i, i < (retrieve_hits r).length →
        (retrieve_hits r).getD i defaultHit =
          ⟨r.distances.getD i 0, r.ids.get? i, r.documents.getD i "",
           (r.metadatas.getD i emptyMeta).source, (r.metadatas.getD i emptyMeta).page⟩)
    ∧ (∀ i, i < (retrieve_hits r).length →
        (r.distances.length ≤ i → ((retrieve_hits r).getD i defaultHit).score = 0)
        ∧ (r.ids.length ≤ i → ((retrieve_hits r).getD i defaultHit).chunk_id = none)
        ∧ (r.documents.length ≤ i → ((retrieve_hits r).getD i defaultHit).chunk = "")
        ∧ (r.metadatas.length ≤ i →
            ((retrieve_hits r).getD i defaultHit).source = none
            ∧ ((retrieve_hits r).getD i defaultHit).page = none)) := by
  refine ⟨by simp [retrieve_hits], retrieve_hits_getD r, ?_⟩
  intro i hi
  rw [retrieve_hits_getD r i hi]
  refine ⟨fun hle => ?_, fun hle => ?_, fun hle => ?_, fun hle => ?_⟩
  · exact List.getD_eq_default _ _ hle
  · exact List.get?_eq_none.mpr hle
  · exact List.getD_eq_default _ _ hle
  · constructor
    · rw [show (⟨r.distances.getD i 0, r.ids.get? i, r.documents.getD i "",
          (r.metadatas.getD i emptyMeta).source,
          (r.metadatas.getD i emptyMeta).page⟩ : Hit).source
            = (r.metadatas.getD i emptyMeta).source from rfl,
        List.getD_eq_default _ _ hle]
      rfl
    · rw [show (⟨r.distances.getD i 0, r.ids.get? i, r.documents.getD i "",
          (r.metadatas.getD i emptyMeta).source,
          (r.metadatas.getD i emptyMeta).page⟩ : Hit).page
            = (r.metadatas.getD i emptyMeta).page from rfl,
        List.getD_eq_default _ _ hle]
      rfl

/-- C10 witness: the defaults at a concrete ragged engine result (one id,
two documents, no metadata, three distances). -/
theorem retrieve_hits_defaults_witness :
    (retrieve_hits ⟨["id1"], ["d1", "d2"], [], [3, 4, 5]⟩).length =
      max (max 1 2) (max 0 3)
    ∧ (∀ i, i < (retrieve_hits ⟨["id1"], ["d1", "d2"], [], [3, 4, 5]⟩).length →
        (retrieve_hits ⟨["id1"], ["d1", "d2"], [], [3, 4, 5]⟩).getD i defaultHit =
          ⟨([3, 4, 5] : List Rat).getD i 0, (["id1"] : List String).get? i,
           (["d1", "d2"] : List String).getD i "",
           (([] : List ChromaMeta).getD i emptyMeta).source,
           (([] : List ChromaMeta).getD i emptyMeta).page⟩)
    ∧ (∀ i, i < (retrieve_hits ⟨["id1"], ["d1", "d2"], [], [3, 4, 5]⟩).length →
        (([3, 4, 5] : List Rat).length ≤ i →
          ((retrieve_hits ⟨["id1"], ["d1", "d2"], [], [3, 4, 5]⟩).getD i defaultHit).score = 0)
        ∧ ((["id1"] : List String).length ≤ i →
          ((retrieve_hits ⟨["id1"], ["d1", "d2"], [], [3, 4, 5]⟩).getD i
            defaultHit).chunk_id = none)
        ∧ ((["d1", "d2"] : List String).length ≤ i →
          ((retrieve_hits ⟨["id1"], ["d1", "d2"], [], [3, 4, 5]⟩).getD i
            defaultHit).chunk = "")
        ∧ (([] : List ChromaMeta).length ≤ i →
          ((retrieve_hits ⟨["id1"], ["d1", "d2"], [], [3, 4, 5]⟩).getD i
            defaultHit).source = none
          ∧ ((retrieve_hits ⟨["id1"], ["d1", "d2"], [], [3, 4, 5]⟩).getD i
            defaultHit).page = none)) :=
  retrieve_hits_defaults ⟨["id1"], ["d1", "d2"], [], [3, 4, 5]⟩

/-! ### Claim C5: absent index handle is an explicit error -/

/-- C5: calling `retrieve` or `answer_with_rag` with an absent index
handle (`None`) fails with the explicit `ValueError` message raised to
the caller, and in particular never returns any hit list. -/
theorem retrieve_requires_index (engine : String → Nat → EngineRaw) (query : String)
    (top_k : Nat) (llm_fn : String → Except String String) :
    retrieve engine query none top_k =
      Except.error "Index object is None. Build or load an index first."
    ∧ answer_with_rag engine llm_fn query none top_k =
      Except.error "Index object is None. Build or load an index first."
    ∧ ∀ hits : List Hit, retrieve engine query none top_k ≠ Except.ok hits :=
  ⟨rfl, rfl, fun _ h => by simp [retrieve] at h⟩

/-- C5 witness: the explicit errors at concrete arguments. -/
theorem retrieve_requires_index_witness :
    retrieve (fun _ _ => ⟨[], [], [], []⟩) "hi" none 4 =
      Except.error "Index object is None. Build or load an index first."
    ∧ answer_with_rag (fun _ _ => ⟨[], [], [], []⟩) (fun p => Except.ok p) "hi" none 4 =
      Except.error "Index object is None. Build or load an index first."
    ∧ ∀ hits : List Hit,
        retrieve (fun _ _ => ⟨[], [], [], []⟩) "hi" none 4 ≠ Except.ok hits :=
  retrieve_requires_index (fun _ _ => ⟨[], [], [], []⟩) "hi" 4 (fun p => Except.ok p)

/-! ### Claim C2: the prompt character budget -/

def sumLens (l : List String) : Nat := (l.map String.length).sum

theorem promptPartsAux_total (max_chars : Nat) :
    ∀ (rs : List Hit) (total : Nat), total ≤ max_chars →
      total + sumLens (promptPartsAux max_chars rs total) ≤ max_chars := by
  intro rs
  induction rs with
  | nil =>
    intro total h
    simpa [promptPartsAux, sumLens] using h
  | cons r rs ih =>
    intro total h
    rw [promptPartsAux]
    by_cases hc : max_chars < total + (segment r).length
    · simpa [if_pos hc, sumLens] using h
    · simp only [if_neg hc]
      have := ih (total + (segment r).length) (by omega)
      simp only [sumLens, List.map_cons, List.sum_cons] at this ⊢
      omega

theorem promptPartsAux_take (max_chars : Nat) :
    ∀ (rs : List Hit) (total : Nat),
      ∃ k, promptPartsAux max_chars rs total = (rs.map segment).take k := by
  intro rs
  induction rs with
  | nil => exact fun _ => ⟨0, rfl⟩
  | cons r rs ih =>
    intro total
    rw [promptPartsAux]
    by_cases hc : max_chars < total + (segment r).length
    · exact ⟨0, by simp [if_pos hc]⟩
    · obtain ⟨k, hk⟩ := ih (total + (segment r).length)
      exact ⟨k + 1, by simp [if_neg hc, hk, List.take_succ_cons]⟩

theorem promptPartsAux_stop (max_chars : Nat) :
    ∀ (rs : List Hit) (total : Nat),
      (promptPartsAux max_chars rs total).length < rs.length →
      max_chars < total + sumLens (promptPartsAux max_chars rs total)
        + (segment (rs.getD (promptPartsAux max_chars rs total).length
            defaultHit)).length := by
  intro rs
  induction rs with
  | nil => intro total h; simp [promptPartsAux] at h
  | cons r rs ih =>
    intro total h
    rw [promptPartsAux] at h ⊢
    by_cases hc : max_chars < total + (segment r).length
    · simp only [if_pos hc] at h ⊢
      simpa [sumLens] using hc
    · simp only [if_neg hc] at h ⊢
      have h' : (promptPartsAux max_chars rs (total + (segment r).length)).length
          < rs.length := by simpa using h
      have := ih (total + (segment r).length) h'
      simp only [sumLens, List.map_cons, List.sum_cons, List.length_cons,
        List.getD_cons_succ] at this ⊢
      omega

theorem intercalate_go_length (s : String) :
    ∀ (l : List String) (acc : String),
      (String.intercalate.go acc s l).length =
        acc.length + (l.map String.length).sum + s.length * l.length := by
  intro l
  induction l with
  | nil =>
    intro acc
    rw [String.intercalate.go]
    simp
  | cons a as ih =>
    intro acc
    rw [String.intercalate.go, ih]
    simp only [String.length_append, List.map_cons, List.sum_cons, List.length_cons,
      Nat.mul_succ]
    omega

theorem prompt_context_length (retrieved : List Hit) (max_chars : Nat) :
    (prompt_context retrieved max_chars).length
      ≤ max_chars + ((promptParts retrieved max_chars).length - 1) := by
  have hsum := promptPartsAux_total max_chars retrieved 0 (by omega)
  rw [prompt_context]
  cases hp : promptParts retrieved max_chars with
  | nil => simp [String.intercalate]
  | cons a as =>
    rw [String.intercalate, intercalate_go_length]
    rw [promptParts] at hp
    rw [hp] at hsum
    simp only [sumLens, List.map_cons, List.sum_cons, Nat.zero_add] at hsum
    simp only [List.length_cons]
    have hnl : ("\n" : String).length = 1 := rfl
    rw [hnl]
    omega

/-- C2 (amended): for every query, hit list and budget `N`: the total
length of the formatted segments included by `assemble_prompt` is at most
`N`; the included segments are an in-order prefix of the hits' formatted
segments (whole segments only, never truncated mid-segment); assembly
stops — discarding the offending segment — at the first segment whose
addition would exceed `N`.  However the context section itself is the
`"\n"`-join of those segments: the separator newlines are not counted
against the budget, so the context section's length is only bounded by
`N + (number of included segments - 1)` and can exceed `N` (see the
counterexample). -/
theorem assemble_prompt_budget (query : String) (retrieved : List Hit) (max_chars : Nat) :
    sumLens (promptParts retrieved max_chars) ≤ max_chars
    ∧ (∃ k, promptParts retrieved max_chars = (retrieved.map segment).take k)
    ∧ ((promptParts retrieved max_chars).length < retrieved.length →
        max_chars < sumLens (promptParts retrieved max_chars)
          + (segment (retrieved.getD (promptParts retrieved max_chars).length
              defaultHit)).length)
    ∧ (prompt_context retrieved max_chars).length
        ≤ max_chars + ((promptParts retrieved max_chars).length - 1)
    ∧ assemble_prompt query retrieved max_chars =
        "You are a travel assistant. Use only the context below to answer the question.\n\n"
          ++ "Context:\n" ++ prompt_context retrieved max_chars ++ "\nQuestion:\n" ++ query
          ++ "\n"
          ++ "Answer concisely in 2â€“4 sentences and mention file names when relevant." := by
  refine ⟨?_, promptPartsAux_take max_chars retrieved 0,
    ?_, prompt_context_length retrieved max_chars, rfl⟩
  · have := promptPartsAux_total max_chars retrieved 0 (by omega)
    simpa [promptParts] using this
  · intro hlt
    have := promptPartsAux_stop max_chars retrieved 0 hlt
    simpa [promptParts] using this

/-- A hit whose formatted segment is exactly 30 characters:
`"Source: None (page None)\n\n---\n"`. -/
def overflowHit : Hit := ⟨0, none, "", none, none⟩

/-- C2 counterexample: with two hits whose segments are 30 characters each
and `max_chars = 60`, both segments pass the budget check (30 + 30 = 60)
yet the joined context section is 61 characters long — the newline that
`"\n".join` inserts between the segments is not counted, so the context
section of the assembled prompt exceeds `max_chars`. -/
theorem assemble_prompt_budget_counterexample :
    (prompt_context [overflowHit, overflowHit] 60).length = 61
    ∧ ¬ ((prompt_context [overflowHit, overflowHit] 60).length ≤ 60) := by
  constructor <;> decide

/-- C2 witness: the amended statement at the concrete two-hit list that
realises the `N + (segments - 1)` context length. -/
theorem assemble_prompt_budget_witness :
    sumLens (promptParts [overflowHit, overflowHit] 60) ≤ 60
    ∧ (∃ k, promptParts [overflowHit, overflowHit] 60 =
        (([overflowHit, overflowHit] : List Hit).map segment).take k)
    ∧ ((promptParts [overflowHit, overflowHit] 60).length
          < ([overflowHit, overflowHit] : List Hit).length →
        60 < sumLens (promptParts [overflowHit, overflowHit] 60)
          + (segment (([overflowHit, overflowHit] : List Hit).getD
              (promptParts [overflowHit, overflowHit] 60).length defaultHit)).length)
    ∧ (prompt_context [overflowHit, overflowHit] 60).length
        ≤ 60 + ((promptParts [overflowHit, overflowHit] 60).length - 1)
    ∧ assemble_prompt "q" [overflowHit, overflowHit] 60 =
        "You are a travel assistant. Use only the context below to answer the question.\n\n"
          ++ "Context:\n" ++ prompt_context [overflowHit, overflowHit] 60
          ++ "\nQuestion:\n" ++ "q" ++ "\n"
          ++ "Answer concisely in 2â€“4 sentences and mention file names when relevant." :=
  assemble_prompt_budget "q" [overflowHit, overflowHit] 60

/-! ### Claim C4: generation failure falls back to a templated answer -/

theorem append_ne_empty_of_left {a : String} (ha : a ≠ "") (b : String) :
    a ++ b ≠ "" := by
  intro h
  have hl := congrArg String.length h
  rw [String.length_append, show ("" : String).length = 0 from rfl] at hl
  have ha0 : a.length = 0 := by omega
  apply ha
  cases a with
  | mk data =>
    cases data with
    | nil => rfl
    | cons c cs => simp [String.length] at ha0

theorem fallback_files_of_sources {retrieved : List Hit}
    (hsrc : retrieved.filterMap Hit.source ≠ []) :
    fallback_files retrieved =
      String.intercalate ", " ((retrieved.filterMap Hit.source).dedup) := by
  have hd : (retrieved.filterMap Hit.source).dedup ≠ [] :=
    fun hd0 => hsrc ((List.dedup_eq_nil _).mp hd0)
  simp only [fallback_files]
  rw [if_neg (by simpa using hd)]

/-- C4: for every query and present index handle, if at least one
retrieved hit carries a source filename and the supplied generate function
raises an exception or returns an empty result, `answer_with_rag` does not
propagate the exception: it returns a non-empty templated answer that
contains the deduplicated comma-joined list of the distinct source files
found among the retrieved hits. -/
theorem answer_with_rag_fallback (engine : String → Nat → EngineRaw)
    (llm_fn : String → Except String String) (query : String) (hdl : IndexHandle)
    (top_k : Nat)
    (hsrc : (retrieve_hits (engine query top_k)).filterMap Hit.source ≠ [])
    (hfail : (∃ e, llm_fn (assemble_prompt query (retrieve_hits (engine query top_k)) 2000)
          = Except.error e)
        ∨ llm_fn (assemble_prompt query (retrieve_hits (engine query top_k)) 2000)
          = Except.ok "") :
    ∃ res : RagResult,
      answer_with_rag engine llm_fn query (some hdl) top_k = Except.ok res
      ∧ res.answer ≠ ""
      ∧ ∃ pre post, res.answer =
          pre ++ String.intercalate ", "
            (((retrieve_hits (engine query top_k)).filterMap Hit.source).dedup) ++ post := by
  have hff := fallback_files_of_sources hsrc
  have hp : ("I found relevant information in " : String) ≠ "" := by decide
  rcases hfail with ⟨e, he⟩ | he
  · refine ⟨⟨retrieve_hits (engine query top_k),
      assemble_prompt query (retrieve_hits (engine query top_k)) 2000,
      "I found relevant information in "
        ++ fallback_files (retrieve_hits (engine query top_k))
        ++ " but could not call the LLM (" ++ e ++ ")."⟩, ?_, ?_, ?_⟩
    · simp only [answer_with_rag, retrieve, he]
      rw [if_neg (append_ne_empty_of_left (append_ne_empty_of_left
        (append_ne_empty_of_left (append_ne_empty_of_left hp _) _) _) _)]
    · exact append_ne_empty_of_left (append_ne_empty_of_left
        (append_ne_empty_of_left (append_ne_empty_of_left hp _) _) _) _
    · refine ⟨"I found relevant information in ",
        " but could not call the LLM (" ++ e ++ ").", ?_⟩
      simp [hff, String.append_assoc]
  · refine ⟨⟨retrieve_hits (engine query top_k),
      assemble_prompt query (retrieve_hits (engine query top_k)) 2000,
      "I found relevant information in "
        ++ fallback_files (retrieve_hits (engine query top_k))
        ++ ", but could not generate a detailed answer."⟩, ?_, ?_, ?_⟩
    · simp only [answer_with_rag, retrieve, he]
      simp
    · exact append_ne_empty_of_left (append_ne_empty_of_left
        (append_ne_empty_of_left hp _) _) _
    · refine ⟨"I found relevant information in ",
        ", but could not generate a detailed answer.", ?_⟩
      simp [hff, String.append_assoc]

/-- The engine used by the C4 witness: one hit whose metadata names the
source file a.pdf. -/
def witnessEngine : String → Nat → EngineRaw :=
  fun _ _ => ⟨["id1"], ["doc one"], [⟨some "a.pdf", some 1, none⟩], [0]⟩

/-- The generate function used by the C4 witness: always raises. -/
def witnessLLM : String → Except String String := fun _ => Except.error "boom"

/-- C4 witness: a raising generate function at a one-hit engine result. -/
theorem answer_with_rag_fallback_witness :
    ((retrieve_hits (witnessEngine "q" 4)).filterMap Hit.source ≠ []
      ∧ (∃ e, witnessLLM (assemble_prompt "q" (retrieve_hits (witnessEngine "q" 4)) 2000)
          = Except.error e))
    ∧ ∃ res : RagResult,
        answer_with_rag witnessEngine witnessLLM "q"
          (some ⟨"./db/chroma_store", "travel_docs", []⟩) 4 = Except.ok res
        ∧ res.answer ≠ ""
        ∧ ∃ pre post, res.answer =
            pre ++ String.intercalate ", "
              (((retrieve_hits (witnessEngine "q" 4)).filterMap Hit.source).dedup)
              ++ post :=
  ⟨⟨by decide, ⟨"boom", rfl⟩⟩,
    answer_with_rag_fallback witnessEngine witnessLLM "q"
      ⟨"./db/chroma_store", "travel_docs", []⟩ 4 (by decide) (Or.inl ⟨"boom", rfl⟩)⟩

/-! ## PDF extraction (`extract_text_from_pdf`, lines 55-66) -/

/-- `(page.extract_text() or "").strip()` followed by
`" ".join(text.split())`. -/
def normalize_ws (s : String) : String := String.intercalate " " (splitWords s.trim)

/-- A PDF file as seen through pdfplumber: either opening it fails (a
malformed file makes `pdfplumber.open` raise) or it yields a list of
pages, each of which `page.extract_text()` turns into `None` or a
string. -/
inductive PdfDoc where
  | openFail : PdfDoc
  | pages : List (Option String) → PdfDoc

/-- The page loop of `extract_text_from_pdf` with `enumerate(..., start=1)`
modelled by the counter argument. -/
def extractPagesAux : Nat → List (Option String) → List (Nat × String)
  | _, [] => []
  | i, raw :: rest =>
    if normalize_ws (raw.getD "") = "" then extractPagesAux (i + 1) rest
    else (i, normalize_ws (raw.getD "")) :: extractPagesAux (i + 1) rest

/-- `extract_text_from_pdf` (lines 55-66): the whole body is wrapped in
`try/except`, so a file whose open fails is reported via `print` and
contributes the empty page list; otherwise pages are enumerated from 1,
blank pages are skipped, and whitespace is collapsed. -/
def extract_text_from_pdf (doc : PdfDoc) : List (Nat × String) :=
  match doc with
  | PdfDoc.openFail => []
  | PdfDoc.pages raws => extractPagesAux 1 raws

theorem extractPagesAux_mem :
    ∀ (raws : List (Option String)) (i0 : Nat) (p : Nat × String),
      p ∈ extractPagesAux i0 raws →
      i0 ≤ p.1 ∧ p.1 < i0 + raws.length
      ∧ p.2 = normalize_ws ((raws.getD (p.1 - i0) none).getD "")
      ∧ p.2 ≠ "" := by
  intro raws
  induction raws with
  | nil => intro i0 p hp; simp [extractPagesAux] at hp
  | cons raw rest ih =>
    intro i0 p hp
    rw [extractPagesAux] at hp
    by_cases hb : normalize_ws (raw.getD "") = ""
    · rw [if_pos hb] at hp
      obtain ⟨h1, h2, h3, h4⟩ := ih (i0 + 1) p hp
      refine ⟨by omega, by simp only [List.length_cons]; omega, ?_, h4⟩
      rw [h3]
      have hidx : p.1 - i0 = (p.1 - (i0 + 1)) + 1 := by omega
      rw [hidx, List.getD_cons_succ]
    · rw [if_neg hb] at hp
      rcases List.mem_cons.mp hp with hhead | htail
      · subst hhead
        refine ⟨le_refl _, by simp only [List.length_cons]; omega, ?_, hb⟩
        simp
      · obtain ⟨h1, h2, h3, h4⟩ := ih (i0 + 1) p htail
        refine ⟨by omega, by simp only [List.length_cons]; omega, ?_, h4⟩
        rw [h3]
        have hidx : p.1 - i0 = (p.1 - (i0 + 1)) + 1 := by omega
        rw [hidx, List.getD_cons_succ]

theorem extractPagesAux_skip :
    ∀ (raws : List (Option String)) (i0 i : Nat), i < raws.length →
      normalize_ws ((raws.getD i none).getD "") = "" →
      ∀ t, (i0 + i, t) ∉ extractPagesAux i0 raws := by
  intro raws
  induction raws with
  | nil => intro i0 i hi; simp at hi
  | cons raw rest ih =>
    intro i0 i hi hblank t hp
    rw [extractPagesAux] at hp
    cases i with
    | zero =>
      simp only [List.getD_cons_zero] at hblank
      rw [if_pos hblank] at hp
      have hge := (extractPagesAux_mem rest (i0 + 1) _ hp).1
      have hfst : (i0 + 0, t).1 = i0 := rfl
      omega
    | succ j =>
      simp only [List.getD_cons_succ] at hblank
      have hj : j < rest.length := by simp at hi; omega
      by_cases hb : normalize_ws (raw.getD "") = ""
      · rw [if_pos hb] at hp
        have := ih (i0 + 1) j hj hblank t
        apply this
        have harith : i0 + 1 + j = i0 + (j + 1) := by omega
        rw [harith]
        exact hp
      · rw [if_neg hb] at hp
        rcases List.mem_cons.mp hp with hhead | htail
        · have : i0 + (j + 1) = i0 := congrArg Prod.fst hhead
          omega
        · have := ih (i0 + 1) j hj hblank t
          apply this
          have harith : i0 + 1 + j = i0 + (j + 1) := by omega
          rw [harith]
          exact htail

/-- C7: the extractor never raises — a file that fails to open reports
and contributes zero pages; every produced pair `(n, t)` is 1-indexed
into the page list, its text is the whitespace-collapsed text of page
`n`, and it is non-blank; pages that normalize to the empty string are
skipped. -/
theorem extract_text_spec :
    extract_text_from_pdf PdfDoc.openFail = []
    ∧ ∀ raws : List (Option String),
        (∀ p ∈ extract_text_from_pdf (PdfDoc.pages raws),
            1 ≤ p.1 ∧ p.1 ≤ raws.length
            ∧ p.2 = normalize_ws ((raws.getD (p.1 - 1) none).getD "")
            ∧ p.2 ≠ "")
        ∧ (∀ i, i < raws.length →
            normalize_ws ((raws.getD i none).getD "") = "" →
            ∀ t, (i + 1, t) ∉ extract_text_from_pdf (PdfDoc.pages raws)) := by
  refine ⟨rfl, fun raws => ⟨fun p hp => ?_, fun i hi hblank t hmem => ?_⟩⟩
  · obtain ⟨h1, h2, h3, h4⟩ := extractPagesAux_mem raws 1 p hp
    exact ⟨h1, by omega, h3, h4⟩
  · exact extractPagesAux_skip raws 1 i hi hblank t (by rw [show 1 + i = i + 1 by omega]; exact hmem)

/-- C7 witness: a three-page document — a page with messy whitespace, a
page that extracts to `None`, and a whitespace-only page. -/
theorem extract_text_spec_witness :
    extract_text_from_pdf PdfDoc.openFail = []
    ∧ ((∀ p ∈ extract_text_from_pdf
          (PdfDoc.pages [some "  Hello   world ", none, some "   "]),
            1 ≤ p.1 ∧ p.1 ≤ ([some "  Hello   world ", none, some "   "]
              : List (Option String)).length
            ∧ p.2 = normalize_ws ((([some "  Hello   world ", none, some "   "]
                : List (Option String)).getD (p.1 - 1) none).getD "")
            ∧ p.2 ≠ "")
        ∧ (∀ i, i < ([some "  Hello   world ", none, some "   "]
              : List (Option String)).length →
            normalize_ws ((([some "  Hello   world ", none, some "   "]
                : List (Option String)).getD i none).getD "") = "" →
            ∀ t, (i + 1, t) ∉ extract_text_from_pdf
              (PdfDoc.pages [some "  Hello   world ", none, some "   "]))) :=
  ⟨extract_text_spec.1, extract_text_spec.2 [some "  Hello   world ", none, some "   "]⟩

/-! ## Loading and build-or-load (lines 224-273) -/

/-- The stored collection contents that `collection.get(...)` returns to
`load_index`. -/
structure CollectionData where
  documents : List String
  metadatas : List ChromaMeta
  ids : List String
  deriving DecidableEq

/-- The persistence environment `load_index` observes: whether the index
directory exists, and the collection data when the client constructs and
`get_collection` succeeds (`none` models an open failure, which the code
turns into `return None`). -/
structure StoreEnv where
  dirExists : Bool
  collection : Option CollectionData
  deriving DecidableEq

/-- Lines 246-252 of `load_index`: materialize one metadata dict per index
up to the longest list, backfilling a missing `"text"` key from the
documents list when in range. -/
def load_metadatas (docs : List String) (mds : List ChromaMeta) (ids : List String) :
    List ChromaMeta :=
  let count := max (max docs.length mds.length) ids.length
  (List.range count).map (fun i =>
    let md := mds.getD i emptyMeta
    if md.text = none ∧ i < docs.length then
      { md with text := some (docs.getD i "") }
    else md)

/-- `load_index` (lines 224-260): `None` when the index directory does not
exist or the collection cannot be opened; otherwise a handle dict carrying
the persist directory, the collection name, and the materialized metadata
list. -/
def load_index (env : StoreEnv) (index_dir collection_name : String) :
    Option IndexHandle :=
  if env.dirExists = false then none
  else
    match env.collection with
    | none => none
    | some data =>
      some ⟨index_dir, collection_name,
        load_metadatas data.documents data.metadatas data.ids⟩

/-- `build_or_load_index` (lines 264-273): unless forced, try
`load_index` first and return its handle when it succeeds (a successful
load returns a non-empty dict, which is truthy).  Only otherwise run the
expensive path — `build_index_from_docs`, `save_index`, then re-load —
abstracted as `buildSave` since it performs I/O and invokes the embedder;
the boolean in the result records whether that path ran. -/
def build_or_load_index (env : StoreEnv) (buildSave : Unit → Option IndexHandle)
    (index_dir collection_name : String) (force_rebuild : Bool) :
    Option IndexHandle × Bool :=
  if force_rebuild = false then
    match load_index env index_dir collection_name with
    | some h => (some h, false)
    | none => (buildSave (), true)
  else (buildSave (), true)

/-- C8: when a previously persisted collection exists and opens
successfully (`load_index` succeeds) and the underlying files do not
change between the calls (same environment), `build_or_load_index` with
`force_rebuild = False` returns the loaded handle and does not take the
build path — so two successive calls return the same handle and neither
(in particular not the second) invokes the embedder or the PDF parser. -/
theorem build_or_load_idempotent (env : StoreEnv) (buildSave : Unit → Option IndexHandle)
    (index_dir collection_name : String) (h : IndexHandle)
    (hload : load_index env index_dir collection_name = some h) :
    build_or_load_index env buildSave index_dir collection_name false = (some h, false) := by
  simp [build_or_load_index, hload]

/-- C8 witness: a concrete environment with an existing directory and an
openable one-entry collection. -/
theorem build_or_load_idempotent_witness :
    load_index ⟨true, some ⟨["doc1"], [⟨some "a.pdf", some 1, none⟩], ["id1"]⟩⟩
        "./db/chroma_store" "travel_docs" =
      some ⟨"./db/chroma_store", "travel_docs", [⟨some "a.pdf", some 1, some "doc1"⟩]⟩
    ∧ build_or_load_index ⟨true, some ⟨["doc1"], [⟨some "a.pdf", some 1, none⟩], ["id1"]⟩⟩
        (fun _ => none) "./db/chroma_store" "travel_docs" false =
      (some ⟨"./db/chroma_store", "travel_docs", [⟨some "a.pdf", some 1, some "doc1"⟩]⟩,
       false) :=
  ⟨by decide,
   build_or_load_idempotent ⟨true, some ⟨["doc1"], [⟨some "a.pdf", some 1, none⟩], ["id1"]⟩⟩
     (fun _ => none) "./db/chroma_store" "travel_docs"
     ⟨"./db/chroma_store", "travel_docs", [⟨some "a.pdf", some 1, some "doc1"⟩]⟩ (by decide)⟩

end Travel
